import Mathlib

/-!
Verification development for the LemonyUtils schema-driven SQLite data-access
layer (`sqlitemplate.py`, the blocking variant, and `async_sqlitemplate.py`,
the cooperative variant).

The Python code is shallowly embedded: Python types become `PyType`, the
`_RowDef` dataclass becomes `RowDef`, `TableDef.__init__`'s three input shapes
(a Mapping, an Iterable of row definitions, or anything else) become the
`CDef` inductive, and each variant's construction logic becomes an
`Except`-valued function.  SQL statements are rendered as the same strings the
Python code builds; their effect on the single table is modelled by explicit
state passing over `DBState`, interpreting the simple single-statement
INSERT / DELETE / UPDATE / SELECT shapes the code emits.
-/

namespace SQLiTemplate

/-- Python types that can appear in a column definition.  The source's
`_TYPE_TO_SQLITE_TYPE_MAP` has entries for `str`, `int`, `float`, `bytes` and
`None`; any other Python type is modelled by `custom`. -/
inductive PyType where
  | str
  | int
  | float
  | bytes
  | none
  | custom (tyname : String)
deriving DecidableEq, Repr

/-- `type_to_sqlitetype` from both source files: dictionary lookup in
`_TYPE_TO_SQLITE_TYPE_MAP`, `Option.none` meaning the type is unknown. -/
def type_to_sqlitetype : PyType → Option String
  | .str => some "TEXT"
  | .int => some "INTEGER"
  | .float => some "REAL"
  | .bytes => some "BLOB"
  | .none => some "NULL"
  | .custom _ => Option.none

/-- The `_RowDef` dataclass: one column's name, type, uniqueness and
nullability, with the source's defaults. -/
structure RowDef where
  name : String
  type : PyType
  unique : Bool := false
  nullable : Bool := false
deriving DecidableEq, Repr

/-- An element of the iterable passed to `TableDef.__init__`: either an actual
`_RowDef` or a value of some other Python type (whose type name feeds the
`ValueError` message). -/
inductive CDefElem where
  | rowdef (rd : RowDef)
  | bad (tyname : String)
deriving DecidableEq, Repr

/-- The argument of `TableDef.__init__`: a Mapping (a Python `dict`, i.e. an
insertion-ordered association of names to types), an Iterable of elements, or
any other value (an `int`, say), which matches neither `isinstance` branch. -/
inductive CDef where
  | mapping (entries : List (String × PyType))
  | iterable (elems : List CDefElem)
  | other
deriving DecidableEq, Repr

/-- Errors raised during `TableDef.__init__`: Python `NameError` for reserved
column names and `ValueError` for iterable elements that are not `_RowDef`s. -/
inductive ConstructErr where
  | nameError (msg : String)
  | valueError (msg : String)
deriving DecidableEq, Repr

/-- Python `str.lower()` on one character, for the ASCII range (every name
the code compares against the reserved set is ASCII). -/
def pyLowerChar (c : Char) : Char :=
  if 'A' ≤ c ∧ c ≤ 'Z' then Char.ofNat (c.toNat + 32) else c

/-- Python `str.lower()` (ASCII). -/
def pyLower (s : String) : String := ⟨s.data.map pyLowerChar⟩

/-- `RESERVED_COLUMNS` from `async_sqlitemplate.py`. -/
def RESERVED_COLUMNS : List String := ["id", "_fuzzy_match_"]

/-- The Mapping branch of the blocking variant's `TableDef.__init__`
(`sqlitemplate.py` lines 45-49): a name whose lowercase form is `"id"` raises
`NameError`; otherwise a `_RowDef` with default flags is appended. -/
def syncTableDefMapping : List (String × PyType) → Except ConstructErr (List RowDef)
  | [] => .ok []
  | (n, t) :: rest =>
    if pyLower n = "id" then
      .error (.nameError "name `id` is reserved for inner use")
    else
      (⟨n, t, false, false⟩ :: ·) <$> syncTableDefMapping rest

/-- The Iterable branch of the blocking variant's `TableDef.__init__`
(`sqlitemplate.py` lines 50-55): `_RowDef` elements are appended with no name
check at all; any other element raises `ValueError`. -/
def syncTableDefIterable : List CDefElem → Except ConstructErr (List RowDef)
  | [] => .ok []
  | .rowdef rd :: rest => (rd :: ·) <$> syncTableDefIterable rest
  | .bad tyname :: _ => .error (.valueError ("expect RowDef, got " ++ tyname))

/-- The blocking variant's `TableDef.__init__`: dispatch on the shape of the
argument.  An argument that is neither a Mapping nor an Iterable matches no
branch and leaves the list empty. -/
def syncTableDef : CDef → Except ConstructErr (List RowDef)
  | .mapping entries => syncTableDefMapping entries
  | .iterable elems => syncTableDefIterable elems
  | .other => .ok []

/-- The Mapping branch of the cooperative variant's `TableDef.__init__`
(`async_sqlitemplate.py` lines 48-52): a name whose lowercase form lies in
`RESERVED_COLUMNS` raises `NameError`. -/
def asyncTableDefMapping : List (String × PyType) → Except ConstructErr (List RowDef)
  | [] => .ok []
  | (n, t) :: rest =>
    if pyLower n ∈ RESERVED_COLUMNS then
      .error (.nameError ("name `" ++ n ++ "` is reserved for inner use"))
    else
      (⟨n, t, false, false⟩ :: ·) <$> asyncTableDefMapping rest

/-- The Iterable branch of the cooperative variant's `TableDef.__init__`
(`async_sqlitemplate.py` lines 53-60).  The source appends the element and
then checks the reserved set; since the raised error discards the partially
built list, this is rendered as check-then-cons over `Except`. -/
def asyncTableDefIterable : List CDefElem → Except ConstructErr (List RowDef)
  | [] => .ok []
  | .rowdef rd :: rest =>
    if pyLower rd.name ∈ RESERVED_COLUMNS then
      .error (.nameError ("name `" ++ rd.name ++ "` is reserved for inner use"))
    else
      (rd :: ·) <$> asyncTableDefIterable rest
  | .bad tyname :: _ => .error (.valueError ("expect RowDef, got " ++ tyname))

/-- The cooperative variant's `TableDef.__init__`. -/
def asyncTableDef : CDef → Except ConstructErr (List RowDef)
  | .mapping entries => asyncTableDefMapping entries
  | .iterable elems => asyncTableDefIterable elems
  | .other => .ok []

/-- Python `dict` assignment `d[k] = v`: if the key is present its value is
replaced in place (insertion position kept), otherwise the pair is appended. -/
def dictInsert (d : List (String × PyType)) (k : String) (v : PyType) :
    List (String × PyType) :=
  if d.any (fun p => p.1 = k) then
    d.map (fun p => if p.1 = k then (k, v) else p)
  else
    d ++ [(k, v)]

/-- `TableDef.as_dict` from both source files: fold the row definitions into a
`dict`, later entries with a duplicate name overwriting earlier ones. -/
def as_dict (td : List RowDef) : List (String × PyType) :=
  td.foldl (fun acc rd => dictInsert acc rd.name rd.type) []

/-- The possible `KeysValidationFailure`s: the `"keys not equal"` failure of
full-match validation, and the `"unexpected keys: ..."` failure that carries
the offending keys (a Python `set`, modelled as a `Finset`). -/
inductive ValErr where
  | keysNotEqual
  | unexpectedKeys (ks : Finset String)
deriving DecidableEq

/-- `_DataBase.validate_keys` from `sqlitemplate.py` (lines 110-139), acting
on the key lists of `d` and `dt` (the source immediately converts both to
sets). -/
def validate_keys (dKeys dtKeys : List String) (fullmatch : Bool) :
    Except ValErr Unit :=
  let dk : Finset String := dKeys.toFinset
  let dtk : Finset String := dtKeys.toFinset
  if fullmatch then
    if dk = dtk then .ok () else .error .keysNotEqual
  else
    let unexpected := dk \ dtk
    if unexpected = ∅ then .ok () else .error (.unexpectedKeys unexpected)

/-- `_AsyncDataBase.validate_keys` from `async_sqlitemplate.py`
(lines 114-143); the body is character-for-character the same as the blocking
variant's. -/
def async_validate_keys (dKeys dtKeys : List String) (fullmatch : Bool) :
    Except ValErr Unit :=
  let dk : Finset String := dKeys.toFinset
  let dtk : Finset String := dtKeys.toFinset
  if fullmatch then
    if dk = dtk then .ok () else .error .keysNotEqual
  else
    let unexpected := dk \ dtk
    if unexpected = ∅ then .ok () else .error (.unexpectedKeys unexpected)

/-- SQLite values as stored and bound: text, integer, real, blob, NULL.
Reals are modelled as rationals (no claim computes with them; only equality
is used).  Blobs are byte lists. -/
inductive Value where
  | str (s : String)
  | int (n : Int)
  | real (q : ℚ)
  | bytes (bs : List Nat)
  | none
deriving DecidableEq, Repr

/-- Python `f"{value}"` rendering of a bound value.  Only the `str` case is
ever exercised by the spec's claims (the fuzzy wrap `f"%{value}%"` is applied
to values filtered on text-typed columns); the remaining cases approximate
Python's `str()`. -/
def pyStr : Value → String
  | .str s => s
  | .int n => toString n
  | .real q => toString q
  | .bytes bs => toString bs
  | .none => "None"

/-- One executed SQL statement: its text and its bound parameters. -/
structure Stmt where
  sql : String
  params : List Value
deriving DecidableEq, Repr

/-- Python `str(None)` for the `f"{rd.name} {type_to_sqlitetype(rd.type)}"`
interpolation: an absent SQLite type prints as `"None"`. -/
def optStr : Option String → String
  | some s => s
  | Option.none => "None"

/-- One column of the generated CREATE TABLE statement
(`sqlitemplate.py` lines 157-161): name, storage type, `UNIQUE` exactly when
the field is unique, `NOT NULL` exactly when it is not nullable. -/
def renderColumn (rd : RowDef) : String :=
  rd.name ++ " " ++ optStr (type_to_sqlitetype rd.type)
    ++ (if rd.unique then " UNIQUE" else "")
    ++ (if rd.nullable then "" else " NOT NULL")

/-- The CREATE TABLE statement of `_DataBase._create_table`
(`sqlitemplate.py` lines 147-166), whitespace of the triple-quoted format
string included. -/
def createTableSql (tableName : String) (td : List RowDef) : String :=
  "\n                CREATE TABLE IF NOT EXISTS " ++ tableName
    ++ " (\n                    "
    ++ String.intercalate ", " (td.map renderColumn)
    ++ ",\n                    id INTEGER PRIMARY KEY AUTOINCREMENT\n                )\n                "

/-- The CREATE TABLE statement of `_AsyncDataBase.create_table`
(`async_sqlitemplate.py` lines 167-186); the format string is identical to the
blocking variant's. -/
def asyncCreateTableSql (tableName : String) (td : List RowDef) : String :=
  "\n                CREATE TABLE IF NOT EXISTS " ++ tableName
    ++ " (\n                    "
    ++ String.intercalate ", " (td.map renderColumn)
    ++ ",\n                    id INTEGER PRIMARY KEY AUTOINCREMENT\n                )\n                "

/-- The INSERT statement of `_DataBase.add` (`sqlitemplate.py` lines 179-187):
column list from the field map's keys, one `?` placeholder per column. -/
def insertSql (tableName : String) (ddKeys : List String) : String :=
  "\n                INSERT INTO " ++ tableName ++ " ("
    ++ String.intercalate ", " ddKeys
    ++ ")\n                VALUES ("
    ++ String.intercalate ", " (List.replicate ddKeys.length "?")
    ++ ")\n                "

/-- The INSERT statement of `_AsyncDataBase.add`
(`async_sqlitemplate.py` lines 198-206), identical to the blocking one. -/
def asyncInsertSql (tableName : String) (ddKeys : List String) : String :=
  "\n                INSERT INTO " ++ tableName ++ " ("
    ++ String.intercalate ", " ddKeys
    ++ ")\n                VALUES ("
    ++ String.intercalate ", " (List.replicate ddKeys.length "?")
    ++ ")\n                "

/-- The DELETE statement of `_DataBase.delete` (`sqlitemplate.py` line 200). -/
def deleteSql (tableName : String) : String :=
  "DELETE FROM " ++ tableName ++ " WHERE id = ?"

/-- The DELETE statement of `_AsyncDataBase.delete`
(`async_sqlitemplate.py` line 219). -/
def asyncDeleteSql (tableName : String) : String :=
  "DELETE FROM " ++ tableName ++ " WHERE id = ?"

/-- Python `str.rstrip(", ")`: drop every trailing character belonging to the
set `{',', ' '}`. -/
def rstripCommaSpace (s : String) : String :=
  ⟨(s.data.reverse.dropWhile (fun c => c == ',' || c == ' ')).reverse⟩

/-- The UPDATE statement of `_DataBase.modify` (`sqlitemplate.py`
lines 211-216): `"UPDATE t SET "` extended with `"k = ?, "` per change key,
right-stripped of `", "`, then `" WHERE id = ?"`. -/
def updateSql (tableName : String) (keys : List String) : String :=
  rstripCommaSpace
      (keys.foldl (fun q k => q ++ k ++ " = ?, ")
        ("UPDATE " ++ tableName ++ " SET "))
    ++ " WHERE id = ?"

/-- The UPDATE statement of `_AsyncDataBase.modify`
(`async_sqlitemplate.py` lines 231-236), identical to the blocking one. -/
def asyncUpdateSql (tableName : String) (keys : List String) : String :=
  rstripCommaSpace
      (keys.foldl (fun q k => q ++ k ++ " = ?, ")
        ("UPDATE " ++ tableName ++ " SET "))
    ++ " WHERE id = ?"

/-- The SELECT statement and parameter list of `_DataBase.search`
(`sqlitemplate.py` lines 229-241): with no filters the bare full-table
select; otherwise an `" AND "`-joined WHERE clause where a filter on a
text-typed column under the fuzzy flag becomes `LIKE` with the value wrapped
as `%value%`, and every other filter becomes `= ?`. -/
def searchQuery (tableName : String) (ddWithId : List (String × PyType))
    (fuzzy : Bool) (info : List (String × Value)) : String × List Value :=
  if info = [] then
    ("SELECT * FROM " ++ tableName, [])
  else
    let cps := info.map (fun kv =>
      if fuzzy && (List.lookup kv.1 ddWithId == some PyType.str) then
        (kv.1 ++ " LIKE ?", Value.str ("%" ++ pyStr kv.2 ++ "%"))
      else
        (kv.1 ++ " = ?", kv.2))
    ("SELECT * FROM " ++ tableName ++ " WHERE "
        ++ String.intercalate " AND " (cps.map Prod.fst),
      cps.map Prod.snd)

/-- The SELECT statement of `_AsyncDataBase.search`
(`async_sqlitemplate.py` lines 248-260); logic identical to the blocking one
(the fuzzy flag is merely spelled `_fuzzy_match_` there). -/
def asyncSearchQuery (tableName : String) (ddWithId : List (String × PyType))
    (fuzzy : Bool) (info : List (String × Value)) : String × List Value :=
  if info = [] then
    ("SELECT * FROM " ++ tableName, [])
  else
    let cps := info.map (fun kv =>
      if fuzzy && (List.lookup kv.1 ddWithId == some PyType.str) then
        (kv.1 ++ " LIKE ?", Value.str ("%" ++ pyStr kv.2 ++ "%"))
      else
        (kv.1 ++ " = ?", kv.2))
    ("SELECT * FROM " ++ tableName ++ " WHERE "
        ++ String.intercalate " AND " (cps.map Prod.fst),
      cps.map Prod.snd)

/-- The schema-derived state a `_DataBase` / `_AsyncDataBase` instance holds
(`sqlitemplate.py` lines 97-104): the table definition and the table name.
The derived field maps are recomputed from the definition. -/
structure Engine where
  tabledef : List RowDef
  tableName : String
deriving DecidableEq, Repr

/-- `self._datadef = tabledef.as_dict`. -/
def Engine.datadef (e : Engine) : List (String × PyType) :=
  as_dict e.tabledef

/-- `self._datadef_with_id`: a copy of the field map with `d["id"] = int`
assigned. -/
def Engine.datadefWithId (e : Engine) : List (String × PyType) :=
  dictInsert e.datadef "id" PyType.int

/-- One stored row: its auto-assigned id and its field values in schema
(CREATE TABLE column) order. -/
structure Row where
  id : Int
  vals : List Value
deriving DecidableEq, Repr

/-- The stored table: its rows in rowid order and the next id AUTOINCREMENT
will assign (SQLite assigns a strictly larger id than any ever used). -/
structure DBState where
  rows : List Row
  nextId : Int
deriving DecidableEq, Repr

/-- The value a WHERE-clause column reference denotes on a row: the `id`
column holds the row's id, any other name is resolved against the schema
columns in order.  (SQL identifier resolution is modelled case-sensitively;
no claim exercises case-mangled column names.) -/
def colValue (keys : List String) (r : Row) (k : String) : Option Value :=
  if k = "id" then some (Value.int r.id) else List.lookup k (keys.zip r.vals)

/-- SQLite `=` on two bound/stored values: NULL compares equal to nothing
(not even NULL); otherwise plain equality.  (Cross-type numeric affinity is
not modelled; no claim compares an integer with a real.) -/
def sqlEq : Value → Value → Bool
  | .none, _ => false
  | _, .none => false
  | a, b => a == b

/-- SQLite `LIKE` with a `%pat%` pattern on a text value: case-insensitive
(ASCII) substring containment. -/
def likeContains (pat s : String) : Bool :=
  decide ( (pyLower pat).data <:+:  (pyLower s).data)

/-- Whether a row satisfies the conjunction of the WHERE predicates that
`search` renders: per filter, `LIKE '%value%'` when the fuzzy flag is set and
the declared type of the column is text, exact equality otherwise. -/
def rowMatches (ddWithId : List (String × PyType)) (keys : List String)
    (fuzzy : Bool) (info : List (String × Value)) (r : Row) : Bool :=
  info.all (fun kv =>
    if fuzzy && (List.lookup kv.1 ddWithId == some PyType.str) then
      match colValue keys r kv.1 with
      | some (Value.str s) => likeContains (pyStr kv.2) s
      | _ => false
    else
      match colValue keys r kv.1 with
      | some v => sqlEq v kv.2
      | Option.none => false)

/-- The result-row rendering of `search` (`sqlitemplate.py` lines 246-249):
`{k: row[i] for i, k in enumerate(self._datadef_with_id.keys())}`, where the
`SELECT *` row tuple carries the schema columns followed by `id`. -/
def renderRecord (ddWithId : List (String × PyType)) (r : Row) :
    List (String × Value) :=
  (ddWithId.map Prod.fst).zip (r.vals ++ [Value.int r.id])

/-- `_DataBase.add` (`sqlitemplate.py` lines 168-190): full-match key
validation, then a single INSERT.  Returned: the statements executed, and
either the validation error (raised before any statement runs) or the new
row's id (`cursor.lastrowid`) with the new table state.  The `getD` default
is unreachable: full-match validation guarantees every field key is in
`item`. -/
def addOp (e : Engine) (db : DBState) (item : List (String × Value)) :
    List Stmt × Except ValErr (Int × DBState) :=
  match validate_keys (item.map Prod.fst) (e.datadef.map Prod.fst) true with
  | .error er => ([], .error er)
  | .ok _ =>
    let keys := e.datadef.map Prod.fst
    let vals := keys.map (fun k => (List.lookup k item).getD Value.none)
    ([⟨insertSql e.tableName keys, vals⟩],
      .ok (db.nextId, ⟨db.rows ++ [⟨db.nextId, vals⟩], db.nextId + 1⟩))

/-- `_DataBase.delete` (`sqlitemplate.py` lines 192-200): a single
parameterized DELETE by id; no validation, no error when the id is absent. -/
def deleteOp (e : Engine) (db : DBState) (itemId : Int) :
    List Stmt × DBState :=
  ([⟨deleteSql e.tableName, [Value.int itemId]⟩],
    ⟨db.rows.filter (fun r => r.id != itemId), db.nextId⟩)

/-- The effect of `UPDATE t SET k1 = ?, ... WHERE id = ?` on one row: each
assignment sets the named schema column. -/
def updateRow (keys : List String) (info : List (String × Value)) (r : Row) :
    Row :=
  ⟨r.id,
    info.foldl
      (fun vs kv => (keys.zip vs).map (fun p => if p.1 = kv.1 then kv.2 else p.2))
      r.vals⟩

/-- `_DataBase.modify` (`sqlitemplate.py` lines 202-220): return immediately
on an empty change map (no validation, no statement); otherwise partial-match
validation, then a single UPDATE filtered by id. -/
def modifyOp (e : Engine) (db : DBState) (itemId : Int)
    (info : List (String × Value)) : List Stmt × Except ValErr DBState :=
  if info = [] then ([], .ok db)
  else
    match validate_keys (info.map Prod.fst) (e.datadef.map Prod.fst) false with
    | .error er => ([], .error er)
    | .ok _ =>
      let keys := e.datadef.map Prod.fst
      ([⟨updateSql e.tableName (info.map Prod.fst),
          info.map Prod.snd ++ [Value.int itemId]⟩],
        .ok ⟨db.rows.map
              (fun r => if r.id == itemId then updateRow keys info r else r),
            db.nextId⟩)

/-- `_DataBase.search` (`sqlitemplate.py` lines 222-250): partial-match key
validation against the field map with id, then a single SELECT whose rows are
rendered through `renderRecord`. -/
def searchOp (e : Engine) (db : DBState) (fuzzy : Bool)
    (info : List (String × Value)) :
    List Stmt × Except ValErr (List (List (String × Value))) :=
  match validate_keys (info.map Prod.fst) (e.datadefWithId.map Prod.fst) false with
  | .error er => ([], .error er)
  | .ok _ =>
    let (q, ps) := searchQuery e.tableName e.datadefWithId fuzzy info
    let keys := e.tabledef.map RowDef.name
    ([⟨q, ps⟩],
      .ok ((db.rows.filter (rowMatches e.datadefWithId keys fuzzy info)).map
        (renderRecord e.datadefWithId)))

/-- Schema well-formedness: field names are pairwise distinct and none of them
resolves (case-insensitively) to the reserved `id` column — exactly what the
spec's FieldSpec invariant demands, and what a CREATE TABLE free of duplicate
column names requires. -/
def WfEngine (e : Engine) : Prop :=
  (e.tabledef.map RowDef.name).Nodup ∧
    ∀ rd ∈ e.tabledef, pyLower rd.name ≠ "id"

/-- Table-state well-formedness: every stored row's id is below the next
AUTOINCREMENT id, and every row carries one value per schema column. -/
def WfState (e : Engine) (db : DBState) : Prop :=
  ∀ r ∈ db.rows, r.id < db.nextId ∧ r.vals.length = e.tabledef.length

/-- The storage type name the spec assigns to each primitive type
(stated from the spec's words — `str→TEXT, int→INTEGER, float→REAL,
bytes→BLOB` — for comparison with `type_to_sqlitetype`). -/
def claimedStorageType : PyType → String
  | .str => "TEXT"
  | .int => "INTEGER"
  | .float => "REAL"
  | .bytes => "BLOB"
  | _ => ""

/-- A column rendered the way the spec describes it: the field's name, its
mapped storage type, `UNIQUE` exactly when unique, `NOT NULL` exactly when
not nullable. -/
def claimedColumn (rd : RowDef) : String :=
  rd.name ++ " " ++ claimedStorageType rd.type
    ++ (if rd.unique then " UNIQUE" else "")
    ++ (if rd.nullable then "" else " NOT NULL")

/-- The spec's four primitive field types. -/
def primTypes : List PyType := [.str, .int, .float, .bytes]

/-- Modelled from the spec: the generated DDL shape of §6 renders each column
as `<field> <STORAGE_TYPE> ...` with a non-empty field name, so between the
statement's opening parenthesis and the first comma there must stand a column
definition, never whitespace alone (SQLite's grammar likewise rejects a blank
column definition with a syntax error).  This predicate holds exactly when
the first parenthesis is followed by nothing but spaces and newlines up to a
comma — the degenerate statement rendered for an empty schema. -/
def hasEmptyLeadingColumn (stmt : String) : Bool :=
  let afterParen := (stmt.data.dropWhile (fun c => c ≠ '(')).drop 1
  (afterParen.any (fun c => c = ',')) &&
    (afterParen.takeWhile (fun c => c ≠ ',')).all (fun c => c = ' ' ∨ c = '\n')

section Helpers

/-- Inversion for `Functor.map` over `Except`. -/
theorem except_map_ok {ε α β : Type} (f : α → β) (e : Except ε α) (b : β) :
    f <$> e = .ok b ↔ ∃ a, e = .ok a ∧ f a = b := by
  cases e <;> simp [Except.map, Functor.map]

theorem validate_keys_full_ok (d dt : List String) :
    validate_keys d dt true = .ok () ↔ d.toFinset = dt.toFinset := by
  by_cases h : d.toFinset = dt.toFinset <;> simp [validate_keys, h]

theorem validate_keys_full_error (d dt : List String) :
    validate_keys d dt true = .error .keysNotEqual ↔ d.toFinset ≠ dt.toFinset := by
  by_cases h : d.toFinset = dt.toFinset <;> simp [validate_keys, h]

theorem validate_keys_partial_ok (d dt : List String) :
    validate_keys d dt false = .ok () ↔ ∀ k ∈ d, k ∈ dt := by
  by_cases h : d.toFinset \ dt.toFinset = ∅ <;>
    simp only [validate_keys, h, if_true, if_false, Bool.false_eq_true, reduceIte]
  · rw [Finset.sdiff_eq_empty_iff_subset, Finset.subset_iff] at h
    simp only [List.mem_toFinset] at h
    simpa using fun k hk => h hk
  · rw [Finset.sdiff_eq_empty_iff_subset, Finset.subset_iff] at h
    simp only [List.mem_toFinset] at h
    push_neg at h
    obtain ⟨k, hk, hk'⟩ := h
    constructor
    · intro hc; cases hc
    · intro hall; exact absurd (hall k hk) hk'

theorem validate_keys_partial_error (d dt : List String) (ks : Finset String) :
    validate_keys d dt false = .error (.unexpectedKeys ks) ↔
      ks = d.toFinset \ dt.toFinset ∧ ∃ k ∈ d, k ∉ dt := by
  by_cases h : d.toFinset \ dt.toFinset = ∅ <;>
    simp only [validate_keys, h, Bool.false_eq_true, reduceIte]
  · rw [Finset.sdiff_eq_empty_iff_subset, Finset.subset_iff] at h
    simp only [List.mem_toFinset] at h
    constructor
    · intro hc; cases hc
    · rintro ⟨-, k, hk, hk'⟩; exact absurd (h hk) hk'
  · obtain ⟨k, hk⟩ := Finset.nonempty_iff_ne_empty.mpr h
    simp only [Finset.mem_sdiff, List.mem_toFinset] at hk
    constructor
    · intro hc
      have : ValErr.unexpectedKeys (d.toFinset \ dt.toFinset) = .unexpectedKeys ks :=
        Except.error.inj hc
      exact ⟨(ValErr.unexpectedKeys.inj this).symm, k, hk.1, hk.2⟩
    · rintro ⟨rfl, -⟩; rfl

theorem mem_keys_of_lookup {α : Type} {l : List (String × α)} {k : String} {v : α}
    (h : List.lookup k l = some v) : k ∈ l.map Prod.fst := by
  induction l with
  | nil => simp at h
  | cons p rest ih =>
    obtain ⟨pk, pv⟩ := p
    rw [List.lookup_cons] at h
    cases hbeq : (k == pk) with
    | true => simp [eq_of_beq hbeq]
    | false =>
      rw [hbeq] at h
      exact List.mem_cons_of_mem _ (ih h)

theorem lookup_append_left {α : Type} {l₁ : List (String × α)} (l₂ : List (String × α))
    {k : String} {v : α} (h : List.lookup k l₁ = some v) :
    List.lookup k (l₁ ++ l₂) = some v := by
  induction l₁ with
  | nil => simp at h
  | cons p rest ih =>
    obtain ⟨pk, pv⟩ := p
    rw [List.cons_append, List.lookup_cons]
    rw [List.lookup_cons] at h
    cases hbeq : (k == pk) with
    | true => rw [hbeq] at h; exact h
    | false => rw [hbeq] at h; exact ih h

theorem lookup_append_right {α : Type} {l₁ : List (String × α)} (l₂ : List (String × α))
    {k : String} (h : k ∉ l₁.map Prod.fst) :
    List.lookup k (l₁ ++ l₂) = List.lookup k l₂ := by
  induction l₁ with
  | nil => simp
  | cons p rest ih =>
    obtain ⟨pk, pv⟩ := p
    simp only [List.map_cons, List.mem_cons] at h
    push_neg at h
    rw [List.cons_append, List.lookup_cons]
    have hbeq : (k == pk) = false := beq_eq_false_iff_ne.mpr h.1
    rw [hbeq]
    exact ih h.2

theorem lookup_zip_map_self {α : Type} (keys : List String) (f : String → α)
    {k : String} (h : k ∈ keys) :
    List.lookup k (keys.zip (keys.map f)) = some (f k) := by
  induction keys with
  | nil => simp at h
  | cons k' rest ih =>
    rw [List.map_cons, List.zip_cons_cons, List.lookup_cons]
    by_cases hk : k = k'
    · subst hk; rw [beq_self_eq_true]
    · rw [beq_eq_false_iff_ne.mpr hk]
      exact ih (by simpa [hk] using h)

theorem lookup_of_mem_of_nodup {α : Type} {l : List (String × α)} {k : String} {v : α}
    (hnd : (l.map Prod.fst).Nodup) (h : (k, v) ∈ l) : List.lookup k l = some v := by
  induction l with
  | nil => simp at h
  | cons p rest ih =>
    obtain ⟨pk, pv⟩ := p
    rw [List.map_cons, List.nodup_cons] at hnd
    rw [List.lookup_cons]
    rcases List.mem_cons.mp h with hmem | hmem
    · obtain ⟨h1, h2⟩ := Prod.mk.injEq .. ▸ hmem
      subst h1; subst h2
      rw [beq_self_eq_true]
    · have hk : k ≠ pk := by
        intro hkk
        apply hnd.1
        rw [← hkk]
        exact List.mem_map.mpr ⟨(k, v), hmem, rfl⟩
      rw [beq_eq_false_iff_ne.mpr hk]
      exact ih hnd.2 hmem

/-- `dictInsert` on an absent key is an append. -/
theorem dictInsert_of_not_mem {d : List (String × PyType)} {k : String} (v : PyType)
    (h : k ∉ d.map Prod.fst) : dictInsert d k v = d ++ [(k, v)] := by
  have hany : (d.any fun p => p.1 = k) = false := by
    simp only [List.any_eq_false, decide_eq_true_eq]
    intro p hp hpk
    exact h (hpk ▸ List.mem_map_of_mem Prod.fst hp)
  simp [dictInsert, hany]

/-- After `d[k] = v`, looking up `k` yields `v`. -/
theorem lookup_dictInsert (d : List (String × PyType)) (k : String) (v : PyType) :
    List.lookup k (dictInsert d k v) = some v := by
  induction d with
  | nil => simp [dictInsert]
  | cons p rest ih =>
    obtain ⟨pk, pv⟩ := p
    by_cases hp : pk = k
    · have hany : (((pk, pv) :: rest).any fun q => q.1 = k) = true := by
        simp [hp]
      simp [dictInsert, hany, hp, List.lookup_cons]
    · have hcons : dictInsert ((pk, pv) :: rest) k v = (pk, pv) :: dictInsert rest k v := by
        by_cases hr : (rest.any fun q => q.1 = k) = true
        · have hany : (((pk, pv) :: rest).any fun q => q.1 = k) = true := by
            simp only [List.any_cons, hr, Bool.or_true]
          simp only [dictInsert, hany, hr, if_true, List.map_cons]
          simp [hp]
        · have hrf : (rest.any fun q => q.1 = k) = false := by
            rw [← Bool.not_eq_true]; exact hr
          have hany : (((pk, pv) :: rest).any fun q => q.1 = k) = false := by
            simp only [List.any_cons, Bool.or_eq_false_iff]
            exact ⟨decide_eq_false hp, hrf⟩
          simp [dictInsert, hany, hrf]
      rw [hcons, List.lookup_cons, beq_eq_false_iff_ne.mpr (Ne.symm hp)]
      exact ih

/-- Generalized fold for `as_dict`: while the accumulated keys stay disjoint
from the remaining names and those names are pairwise distinct, the fold only
appends. -/
theorem as_dict_go (td : List RowDef) (acc : List (String × PyType))
    (hnd : (td.map RowDef.name).Nodup)
    (hdisj : ∀ rd ∈ td, rd.name ∉ acc.map Prod.fst) :
    td.foldl (fun acc rd => dictInsert acc rd.name rd.type) acc =
      acc ++ td.map (fun rd => (rd.name, rd.type)) := by
  induction td generalizing acc with
  | nil => simp
  | cons rd rest ih =>
    rw [List.map_cons, List.nodup_cons] at hnd
    rw [List.foldl_cons,
      dictInsert_of_not_mem rd.type (hdisj rd (List.mem_cons_self rd rest)),
      ih _ hnd.2, List.map_cons, List.append_assoc, List.singleton_append]
    intro rd' hrd'
    rw [List.map_append]
    simp only [List.mem_append, List.map_cons]
    rintro (h | h)
    · exact hdisj rd' (List.mem_cons_of_mem rd hrd') h
    · simp only [List.map_nil, List.mem_singleton] at h
      exact hnd.1 (h ▸ List.mem_map_of_mem RowDef.name hrd')

/-- With pairwise-distinct field names, `as_dict` is the plain projection of
the row definitions (no overwriting happens). -/
theorem as_dict_of_nodup {td : List RowDef} (hnd : (td.map RowDef.name).Nodup) :
    as_dict td = td.map (fun rd => (rd.name, rd.type)) := by
  simpa [as_dict] using as_dict_go td [] hnd (by simp)

/-- A schema the cooperative variant's Mapping path accepts has no reserved
(lowercased) field name. -/
theorem asyncTableDefMapping_ok_reserved {entries : List (String × PyType)}
    {td : List RowDef} (h : asyncTableDefMapping entries = .ok td) :
    ∀ rd ∈ td, pyLower rd.name ∉ RESERVED_COLUMNS := by
  induction entries generalizing td with
  | nil =>
    simp only [asyncTableDefMapping] at h
    cases h; simp
  | cons p rest ih =>
    obtain ⟨n, t⟩ := p
    simp only [asyncTableDefMapping] at h
    by_cases hres : pyLower n ∈ RESERVED_COLUMNS
    · rw [if_pos hres] at h; cases h
    · rw [if_neg hres] at h
      obtain ⟨td', htd', rfl⟩ := (except_map_ok _ _ _).mp h
      intro rd hrd
      rcases List.mem_cons.mp hrd with rfl | hrd
      · exact hres
      · exact ih htd' rd hrd

/-- A schema the cooperative variant's Iterable path accepts has no reserved
(lowercased) field name. -/
theorem asyncTableDefIterable_ok_reserved {elems : List CDefElem}
    {td : List RowDef} (h : asyncTableDefIterable elems = .ok td) :
    ∀ rd ∈ td, pyLower rd.name ∉ RESERVED_COLUMNS := by
  induction elems generalizing td with
  | nil =>
    simp only [asyncTableDefIterable] at h
    cases h; simp
  | cons el rest ih =>
    cases el with
    | bad tyname => simp only [asyncTableDefIterable] at h; cases h
    | rowdef rd0 =>
      simp only [asyncTableDefIterable] at h
      by_cases hres : pyLower rd0.name ∈ RESERVED_COLUMNS
      · rw [if_pos hres] at h; cases h
      · rw [if_neg hres] at h
        obtain ⟨td', htd', rfl⟩ := (except_map_ok _ _ _).mp h
        intro rd hrd
        rcases List.mem_cons.mp hrd with rfl | hrd
        · exact hres
        · exact ih htd' rd hrd

/-- A schema the blocking variant's Mapping path accepts has no field whose
lowercased name is `id` (nothing else is checked there). -/
theorem syncTableDefMapping_ok_id {entries : List (String × PyType)}
    {td : List RowDef} (h : syncTableDefMapping entries = .ok td) :
    ∀ rd ∈ td, pyLower rd.name ≠ "id" := by
  induction entries generalizing td with
  | nil =>
    simp only [syncTableDefMapping] at h
    cases h; simp
  | cons p rest ih =>
    obtain ⟨n, t⟩ := p
    simp only [syncTableDefMapping] at h
    by_cases hres : pyLower n = "id"
    · rw [if_pos hres] at h; cases h
    · rw [if_neg hres] at h
      obtain ⟨td', htd', rfl⟩ := (except_map_ok _ _ _).mp h
      intro rd hrd
      rcases List.mem_cons.mp hrd with rfl | hrd
      · exact hres
      · exact ih htd' rd hrd

/-- Zipping the column names back onto one UPDATE-assignment step over the
values equals the same step acted on the association list. -/
theorem zip_map_step (keys : List String) (vs : List Value) (kv : String × Value)
    (hlen : vs.length = keys.length) :
    keys.zip ((keys.zip vs).map (fun p => if p.1 = kv.1 then kv.2 else p.2)) =
      (keys.zip vs).map (fun p => if p.1 = kv.1 then (p.1, kv.2) else p) := by
  induction keys generalizing vs with
  | nil => simp
  | cons key ks ih =>
    cases vs with
    | nil => simp at hlen
    | cons v vt =>
      simp only [List.length_cons, Nat.succ.injEq] at hlen
      simp only [List.zip_cons_cons, List.map_cons]
      rw [ih vt hlen]
      by_cases hk : key = kv.1 <;> simp [hk]

/-- One UPDATE-assignment step preserves the number of values. -/
theorem step_length (keys : List String) (vs : List Value) (kv : String × Value)
    (hlen : vs.length = keys.length) :
    ((keys.zip vs).map (fun p => if p.1 = kv.1 then kv.2 else p.2)).length = keys.length := by
  simp [List.length_zip, hlen]

/-- `updateRow` keeps the id and the value count, and its effect, read
through the column association list, is the fold of per-assignment updates. -/
theorem updateRow_zip (keys : List String) (info : List (String × Value))
    (i0 : Int) (vals : List Value) (hlen : vals.length = keys.length) :
    (updateRow keys info ⟨i0, vals⟩).id = i0 ∧
    (updateRow keys info ⟨i0, vals⟩).vals.length = keys.length ∧
    keys.zip (updateRow keys info ⟨i0, vals⟩).vals =
      info.foldl (fun a kv => a.map (fun p => if p.1 = kv.1 then (p.1, kv.2) else p))
        (keys.zip vals) := by
  induction info generalizing vals with
  | nil => exact ⟨rfl, hlen, rfl⟩
  | cons kv rest ih =>
    have hstep := step_length keys vals kv hlen
    have hrec := ih ((keys.zip vals).map (fun p => if p.1 = kv.1 then kv.2 else p.2)) hstep
    have hshow : updateRow keys (kv :: rest) ⟨i0, vals⟩ =
        updateRow keys rest
          ⟨i0, (keys.zip vals).map (fun p => if p.1 = kv.1 then kv.2 else p.2)⟩ := rfl
    rw [hshow]
    refine ⟨hrec.1, hrec.2.1, ?_⟩
    rw [hrec.2.2, List.foldl_cons, zip_map_step keys vals kv hlen]

/-- Looking a key up after one assignment step: the stored value is replaced
exactly when the key matches the assignment's column. -/
theorem lookup_map_upd (a : List (String × Value)) (k : String) (kv : String × Value) :
    List.lookup k (a.map (fun p => if p.1 = kv.1 then (p.1, kv.2) else p)) =
      (List.lookup k a).map (fun w => if k = kv.1 then kv.2 else w) := by
  induction a with
  | nil => simp
  | cons p rest ih =>
    obtain ⟨pk, pv⟩ := p
    have hfst : (if ((pk, pv) : String × Value).1 = kv.1 then (((pk, pv) : String × Value).1, kv.2) else (pk, pv)) =
        (pk, if pk = kv.1 then kv.2 else pv) := by
      by_cases hp : pk = kv.1 <;> simp [hp]
    rw [List.map_cons, hfst, List.lookup_cons, List.lookup_cons]
    cases hbeq : (k == pk) with
    | true =>
      have hk : k = pk := eq_of_beq hbeq
      subst hk
      simp
    | false => exact ih

/-- Looking a key up after all assignment steps folds the per-step value
replacement over the change list. -/
theorem lookup_foldl_upd (info : List (String × Value)) (a : List (String × Value)) (k : String) :
    List.lookup k
        (info.foldl (fun a kv => a.map (fun p => if p.1 = kv.1 then (p.1, kv.2) else p)) a) =
      (List.lookup k a).map
        (fun w => info.foldl (fun w kv => if k = kv.1 then kv.2 else w) w) := by
  induction info generalizing a with
  | nil =>
    simp only [List.foldl_nil]
    cases h : List.lookup k a <;> simp
  | cons kv rest ih =>
    rw [List.foldl_cons, ih, lookup_map_upd]
    simp only [List.foldl_cons]
    cases h : List.lookup k a <;> simp

/-- A key no assignment mentions keeps its value through the fold. -/
theorem foldl_upd_value_not_mem (info : List (String × Value)) (k : String) (w : Value)
    (hmem : k ∉ info.map Prod.fst) :
    info.foldl (fun w kv => if k = kv.1 then kv.2 else w) w = w := by
  induction info generalizing w with
  | nil => rfl
  | cons kv rest ih =>
    simp only [List.map_cons, List.mem_cons] at hmem
    push_neg at hmem
    rw [List.foldl_cons, if_neg hmem.1]
    exact ih w hmem.2

/-- With pairwise-distinct change keys, a mentioned key's folded value is the
value the change map assigns it. -/
theorem foldl_upd_value_mem (info : List (String × Value)) (k : String) (w : Value)
    (hnd : (info.map Prod.fst).Nodup) (hmem : k ∈ info.map Prod.fst) :
    some (info.foldl (fun w kv => if k = kv.1 then kv.2 else w) w) = List.lookup k info := by
  induction info generalizing w with
  | nil => simp at hmem
  | cons kv rest ih =>
    obtain ⟨k1, v1⟩ := kv
    rw [List.map_cons, List.nodup_cons] at hnd
    rw [List.foldl_cons, List.lookup_cons]
    by_cases hk : k = k1
    · subst hk
      rw [if_pos rfl, beq_self_eq_true]
      rw [foldl_upd_value_not_mem rest k v1 hnd.1]
    · rw [if_neg hk, beq_eq_false_iff_ne.mpr hk]
      refine ih w hnd.2 ?_
      rcases List.mem_cons.mp hmem with h | h
      · exact absurd h hk
      · exact h

/-- A column name is found in the zip of names and values when the lengths
agree. -/
theorem lookup_zip_some (keys : List String) (vals : List Value) (k : String)
    (hlen : vals.length = keys.length) (hmem : k ∈ keys) :
    ∃ w, List.lookup k (keys.zip vals) = some w := by
  induction keys generalizing vals with
  | nil => simp at hmem
  | cons key ks ih =>
    cases vals with
    | nil => simp at hlen
    | cons v vt =>
      rw [List.zip_cons_cons, List.lookup_cons]
      cases hbeq : (k == key) with
      | true => exact ⟨v, rfl⟩
      | false =>
        have hks : k ∈ ks := by
          rcases List.mem_cons.mp hmem with h | h
          · rw [h, beq_self_eq_true] at hbeq; cases hbeq
          · exact h
        exact ih vt (by simpa using hlen) hks

end Helpers

/-- C2 (counterexample): the blocking variant accepts the reserved name
`_fuzzy_match_`: constructing a schema from the field map
`{"_fuzzy_match_": str}` succeeds with no reserved-name error, although the
lowercased name lies in the reserved set. -/
theorem c2_sync_accepts_fuzzy_match :
    pyLower "_fuzzy_match_" ∈ RESERVED_COLUMNS ∧
    syncTableDef (.mapping [("_fuzzy_match_", PyType.str)]) =
      .ok [⟨"_fuzzy_match_", PyType.str, false, false⟩] :=
  ⟨by decide, rfl⟩

/-- C2 (amended): only the cooperative variant enforces the full reserved
set — every schema it successfully constructs, through either path, contains
no field whose lowercased name lies in `{id, _fuzzy_match_}`; the blocking
variant checks only the name `id`, and only in its field-map path (its
FieldSpec-sequence path performs no name check at all). -/
theorem c2_reserved_name_rejection :
    (∀ cdef td, asyncTableDef cdef = .ok td →
      ∀ rd ∈ td, pyLower rd.name ∉ RESERVED_COLUMNS) ∧
    (∀ entries td, syncTableDefMapping entries = .ok td →
      ∀ rd ∈ td, pyLower rd.name ≠ "id") := by
  constructor
  · intro cdef td h
    cases cdef with
    | mapping entries => exact asyncTableDefMapping_ok_reserved h
    | iterable elems => exact asyncTableDefIterable_ok_reserved h
    | other => cases h; simp
  · intro entries td h
    exact syncTableDefMapping_ok_id h

/-- C2 (witness): the amended theorem applied to the one-field map
`{"title": str}` in the cooperative variant and in the blocking variant. -/
theorem c2_reserved_name_rejection_witness :
    pyLower (RowDef.mk "title" PyType.str false false).name ∉ RESERVED_COLUMNS ∧
    pyLower (RowDef.mk "title" PyType.str false false).name ≠ "id" :=
  ⟨c2_reserved_name_rejection.1 (.mapping [("title", PyType.str)])
      [⟨"title", PyType.str, false, false⟩] rfl _ (by decide),
    c2_reserved_name_rejection.2 [("title", PyType.str)]
      [⟨"title", PyType.str, false, false⟩] rfl _ (by decide)⟩

/-- C3: key validation, both modes.  With full match it succeeds exactly on
set-equal key sets and otherwise fails with the keys-not-equal error; with
partial match it succeeds exactly when every key lies in the reference set and
otherwise fails with an error carrying exactly the offending keys.  The
cooperative variant's validator is the same function. -/
theorem c3_validate_keys_contract (d dt : List String) :
    (validate_keys d dt true = .ok () ↔ d.toFinset = dt.toFinset) ∧
    (validate_keys d dt true = .error .keysNotEqual ↔ d.toFinset ≠ dt.toFinset) ∧
    (validate_keys d dt false = .ok () ↔ ∀ k ∈ d, k ∈ dt) ∧
    (∀ ks, validate_keys d dt false = .error (.unexpectedKeys ks) ↔
      ks = d.toFinset \ dt.toFinset ∧ ∃ k ∈ d, k ∉ dt) ∧
    (∀ fm, async_validate_keys d dt fm = validate_keys d dt fm) :=
  ⟨validate_keys_full_ok d dt, validate_keys_full_error d dt,
    validate_keys_partial_ok d dt, validate_keys_partial_error d dt,
    fun _ => rfl⟩

/-- C10 (counterexample): for the concrete non-Mapping, non-Iterable
argument, construction does yield the empty schema without error, but the
create statement the engine then issues has a blank column definition before
the id column — text no valid CREATE TABLE admits, unlike the statement
rendered for any schema with a field — so the storage engine rejects it and
no table whose only column is id is ever managed. -/
theorem c10_id_only_table_counterexample :
    syncTableDef .other = .ok ([] : List RowDef) ∧
    hasEmptyLeadingColumn (createTableSql "database" []) = true ∧
    hasEmptyLeadingColumn
      (createTableSql "database" [⟨"title", PyType.str, false, false⟩]) = false :=
  ⟨rfl, by decide, by decide⟩

/-- C10 (amended): a `TableDef` argument that is neither a Mapping nor an
Iterable matches no construction branch, so construction succeeds with the
empty schema in both variants, and the engine's derived field maps hold only
the id column; but the create-table statement rendered for the empty schema
carries an empty column list — nothing but whitespace between its opening
parenthesis and the comma before the id column — so it is not a valid CREATE
TABLE statement and the storage engine rejects it (the blocking variant's
constructor fails there, the cooperative variant's create_table does) rather
than creating an id-only table. -/
theorem c10_empty_schema_invalid_ddl (t : String) :
    syncTableDef .other = .ok [] ∧ asyncTableDef .other = .ok [] ∧
    Engine.datadef ⟨[], t⟩ = [] ∧
    Engine.datadefWithId ⟨[], t⟩ = [("id", PyType.int)] ∧
    createTableSql t [] =
      "\n                CREATE TABLE IF NOT EXISTS " ++ t
        ++ " (\n                    ,\n                    id INTEGER PRIMARY KEY AUTOINCREMENT\n                )\n                " ∧
    hasEmptyLeadingColumn (createTableSql "database" []) = true := by
  refine ⟨rfl, rfl, rfl, rfl, ?_, by decide⟩
  simp only [createTableSql, String.append_assoc]
  congr 1

/-- C7: for every schema all of whose field types are among the four
primitives, the CREATE TABLE statement lists, in schema order, one column per
field rendered exactly as the spec describes — the field's name, its mapped
storage type (str→TEXT, int→INTEGER, float→REAL, bytes→BLOB), `UNIQUE`
exactly when the field is unique, `NOT NULL` exactly when it is not
nullable — followed by the trailing id primary-key column. -/
theorem c7_create_table_shape (t : String) (td : List RowDef)
    (hprim : ∀ rd ∈ td, rd.type ∈ primTypes) :
    createTableSql t td =
      "\n                CREATE TABLE IF NOT EXISTS " ++ t
        ++ " (\n                    "
        ++ String.intercalate ", " (td.map claimedColumn)
        ++ ",\n                    id INTEGER PRIMARY KEY AUTOINCREMENT\n                )\n                " := by
  have hmap : td.map renderColumn = td.map claimedColumn := by
    apply List.map_congr_left
    intro rd hrd
    obtain ⟨n, ty, u, nu⟩ := rd
    have hty := hprim _ hrd
    simp only [primTypes, List.mem_cons, List.not_mem_nil, or_false] at hty
    rcases hty with rfl | rfl | rfl | rfl <;> rfl
  rw [createTableSql, hmap]

/-- C7 (witness): the shape theorem applied to a concrete two-field schema
exercising both the unique and the nullable flag. -/
theorem c7_create_table_shape_witness :
    createTableSql "books"
        [⟨"title", PyType.str, true, false⟩, ⟨"price", PyType.float, false, true⟩] =
      "\n                CREATE TABLE IF NOT EXISTS books (\n                    "
        ++ String.intercalate ", "
          (List.map claimedColumn
            [⟨"title", PyType.str, true, false⟩, ⟨"price", PyType.float, false, true⟩])
        ++ ",\n                    id INTEGER PRIMARY KEY AUTOINCREMENT\n                )\n                " :=
  c7_create_table_shape "books" _ (by decide)

/-- C8: delete is total (it performs no validation and runs exactly one
statement), deleting an id twice leaves the same state as deleting it once,
and deleting an id no stored row carries leaves the table unchanged. -/
theorem c8_delete_idempotent (e : Engine) (db : DBState) (itemId : Int) :
    (deleteOp e db itemId).1.length = 1 ∧
    (deleteOp e ((deleteOp e db itemId).2) itemId).2 = (deleteOp e db itemId).2 ∧
    ((∀ r ∈ db.rows, r.id ≠ itemId) → (deleteOp e db itemId).2 = db) := by
  refine ⟨rfl, ?_, ?_⟩
  · simp [deleteOp, List.filter_filter]
  · intro h
    obtain ⟨rows, nextId⟩ := db
    simp only [deleteOp, DBState.mk.injEq, and_true]
    rw [List.filter_eq_self]
    intro r hr
    simpa using h r hr

/-- C8 (witness): deleting id 5 from a one-row table that stores only id 1
leaves the table unchanged. -/
theorem c8_delete_idempotent_witness :
    (deleteOp ⟨[], "t"⟩ ⟨[⟨1, []⟩], 2⟩ 5).2 = ⟨[⟨1, []⟩], 2⟩ :=
  (c8_delete_idempotent ⟨[], "t"⟩ ⟨[⟨1, []⟩], 2⟩ 5).2.2 (by decide)

/-- C9 (counterexample): schema construction is not equivalent between the
variants — a FieldSpec sequence containing the field name `id` is accepted by
the blocking variant and rejected by the cooperative one. -/
theorem c9_variants_construction_differ :
    syncTableDef (.iterable [ .rowdef ⟨ "id", PyType.int, false, false⟩]) =
      .ok [⟨"id", PyType.int, false, false⟩] ∧
    asyncTableDef (.iterable [ .rowdef ⟨ "id", PyType.int, false, false⟩]) =
      .error (.nameError "name `id` is reserved for inner use") :=
  ⟨rfl, rfl⟩

/-- C9 (amended): the two variants agree on key validation, on every rendered
statement (create/insert/update/delete/select) with its bound parameters, and
on schema construction restricted to inputs free of reserved names; they
differ only in reserved-name checking during schema construction (the
blocking variant checks just `id`, and just in the field-map path). -/
theorem c9_variant_agreement :
    (∀ d dt fm, async_validate_keys d dt fm = validate_keys d dt fm) ∧
    (∀ t td, asyncCreateTableSql t td = createTableSql t td) ∧
    (∀ t ks, asyncInsertSql t ks = insertSql t ks) ∧
    (∀ t, asyncDeleteSql t = deleteSql t) ∧
    (∀ t ks, asyncUpdateSql t ks = updateSql t ks) ∧
    (∀ t dd fz info, asyncSearchQuery t dd fz info = searchQuery t dd fz info) ∧
    (∀ entries, (∀ p ∈ entries, pyLower p.1 ∉ RESERVED_COLUMNS) →
      asyncTableDefMapping entries = syncTableDefMapping entries) ∧
    (∀ elems, (∀ rd, CDefElem.rowdef rd ∈ elems → pyLower rd.name ∉ RESERVED_COLUMNS) →
      asyncTableDefIterable elems = syncTableDefIterable elems) := by
  refine ⟨fun _ _ _ => rfl, fun _ _ => rfl, fun _ _ => rfl, fun _ => rfl,
    fun _ _ => rfl, fun _ _ _ _ => rfl, ?_, ?_⟩
  · intro entries h
    induction entries with
    | nil => rfl
    | cons p rest ih =>
      obtain ⟨n, t⟩ := p
      have hn := h (n, t) (List.mem_cons_self _ _)
      have hid : pyLower n ≠ "id" := by
        intro hip
        exact hn (by rw [hip]; exact List.mem_cons_self _ _)
      simp only [asyncTableDefMapping, syncTableDefMapping, if_neg hn, if_neg hid]
      rw [ih fun p hp => h p (List.mem_cons_of_mem _ hp)]
  · intro elems h
    induction elems with
    | nil => rfl
    | cons el rest ih =>
      cases el with
      | bad tyname => rfl
      | rowdef rd =>
        have hn := h rd (List.mem_cons_self _ _)
        simp only [asyncTableDefIterable, syncTableDefIterable, if_neg hn]
        rw [ih fun rd' hrd' => h rd' (List.mem_cons_of_mem _ hrd')]

/-- C9 (witness): the agreement theorem applied to a concrete reserved-free
field map and FieldSpec sequence. -/
theorem c9_variant_agreement_witness :
    asyncTableDefMapping [("title", PyType.str)] =
      syncTableDefMapping [("title", PyType.str)] ∧
    asyncTableDefIterable [ .rowdef ⟨ "price", PyType.float, false, false⟩] =
      syncTableDefIterable [ .rowdef ⟨ "price", PyType.float, false, false⟩] :=
  ⟨c9_variant_agreement.2.2.2.2.2.2.1 [("title", PyType.str)] (by decide),
    c9_variant_agreement.2.2.2.2.2.2.2 [ .rowdef ⟨ "price", PyType.float, false, false⟩]
      (by
        intro rd hrd
        obtain rfl := CDefElem.rowdef.inj (List.mem_singleton.mp hrd)
        decide)⟩

/-- C4: the select statement built by search.  With an empty filter map it
selects every row of the table with no parameters; otherwise it AND-joins one
predicate per filter, a filter's predicate being a substring match (the value
wrapped as `%value%`) exactly when the fuzzy flag is set and the filter's
declared type is text, and an exact-equality match otherwise.  The `id`
column's declared type is integer in every engine's field map with id, so a
filter on `id` is always exact. -/
theorem c4_search_statement (e : Engine) (fuzzy : Bool)
    (info : List (String × Value)) :
    searchQuery e.tableName e.datadefWithId fuzzy [] =
      ("SELECT * FROM " ++ e.tableName, []) ∧
    List.lookup "id" e.datadefWithId = some PyType.int ∧
    (∀ v : Value, searchQuery e.tableName e.datadefWithId fuzzy [("id", v)] =
      ("SELECT * FROM " ++ e.tableName ++ " WHERE id = ?", [v])) ∧
    (info ≠ [] →
      searchQuery e.tableName e.datadefWithId fuzzy info =
        ("SELECT * FROM " ++ e.tableName ++ " WHERE "
            ++ String.intercalate " AND " (info.map (fun kv =>
              if fuzzy = true ∧ List.lookup kv.1 e.datadefWithId = some PyType.str
              then kv.1 ++ " LIKE ?" else kv.1 ++ " = ?")),
          info.map (fun kv =>
            if fuzzy = true ∧ List.lookup kv.1 e.datadefWithId = some PyType.str
            then Value.str ("%" ++ pyStr kv.2 ++ "%") else kv.2))) := by
  have hid : List.lookup "id" e.datadefWithId = some PyType.int :=
    lookup_dictInsert _ _ _
  have hcps : ∀ info' : List (String × Value),
      (info'.map (fun kv =>
        if fuzzy && (List.lookup kv.1 e.datadefWithId == some PyType.str) then
          (kv.1 ++ " LIKE ?", Value.str ("%" ++ pyStr kv.2 ++ "%"))
        else
          (kv.1 ++ " = ?", kv.2))) =
      info'.map (fun kv =>
        (if fuzzy = true ∧ List.lookup kv.1 e.datadefWithId = some PyType.str
         then kv.1 ++ " LIKE ?" else kv.1 ++ " = ?",
         if fuzzy = true ∧ List.lookup kv.1 e.datadefWithId = some PyType.str
         then Value.str ("%" ++ pyStr kv.2 ++ "%") else kv.2)) := by
    intro info'
    apply List.map_congr_left
    intro kv _
    by_cases h1 : fuzzy = true <;>
      by_cases h2 : List.lookup kv.1 e.datadefWithId = some PyType.str <;>
      simp [h1, h2]
  refine ⟨by simp [searchQuery], hid, ?_, ?_⟩
  · intro v
    have hb : (fuzzy && (List.lookup "id" e.datadefWithId == some PyType.str)) = false := by
      rw [hid]; simp
    have hne : ([("id", v)] : List (String × Value)) ≠ [] := by simp
    simp only [searchQuery, if_neg hne, List.map_cons, List.map_nil, hb,
      Bool.false_eq_true, if_false, String.append_assoc]
    rfl
  · intro hne
    simp only [searchQuery, if_neg hne, hcps, List.map_map]
    constructor

/-- C4 (witness): the non-empty-filter conjunct applied to a concrete
two-filter query (a text filter and an integer filter) under the fuzzy
flag. -/
theorem c4_search_statement_witness :
    searchQuery "books"
        (Engine.datadefWithId ⟨[⟨"title", PyType.str, false, false⟩], "books"⟩)
        true [("title", Value.str "Hello"), ("id", Value.int 3)] =
      ("SELECT * FROM books WHERE "
          ++ String.intercalate " AND "
            ([("title", Value.str "Hello"), ("id", Value.int 3)].map (fun kv =>
              if true = true ∧ List.lookup kv.1
                  (Engine.datadefWithId ⟨[⟨"title", PyType.str, false, false⟩], "books"⟩) =
                    some PyType.str
              then kv.1 ++ " LIKE ?" else kv.1 ++ " = ?")),
        [("title", Value.str "Hello"), ("id", Value.int 3)].map (fun kv =>
          if true = true ∧ List.lookup kv.1
              (Engine.datadefWithId ⟨[⟨"title", PyType.str, false, false⟩], "books"⟩) =
                some PyType.str
          then Value.str ("%" ++ pyStr kv.2 ++ "%") else kv.2)) :=
  (c4_search_statement ⟨[⟨"title", PyType.str, false, false⟩], "books"⟩ true
    [("title", Value.str "Hello"), ("id", Value.int 3)]).2.2.2 (by decide)

/-- C6 (counterexample): modify with an empty change map is a mutating-
operation call that executes zero statements, not exactly one. -/
theorem c6_modify_empty_runs_no_statement :
    (modifyOp ⟨[⟨"title", PyType.str, false, false⟩], "books"⟩ ⟨[], 1⟩ 1 []).1.length
      = 0 :=
  rfl

/-- C6 (amended): validation completes before execution — whenever add or
modify returns a validation error, the statement trace is empty and the table
state unreferenced — and each mutating operation executes at most one
statement: exactly one for add on success and for delete always, exactly one
for modify on success with a non-empty change map, and zero for modify on an
empty change map (which returns the table unchanged). -/
theorem c6_validation_before_execution (e : Engine) (db : DBState)
    (item info : List (String × Value)) (itemId : Int) :
    (∀ er, (addOp e db item).2 = .error er → addOp e db item = ([], .error er)) ∧
    (∀ r, (addOp e db item).2 = .ok r → (addOp e db item).1.length = 1) ∧
    (∀ er, (modifyOp e db itemId info).2 = .error er →
      modifyOp e db itemId info = ([], .error er)) ∧
    (∀ db', (modifyOp e db itemId info).2 = .ok db' → info ≠ [] →
      (modifyOp e db itemId info).1.length = 1) ∧
    (modifyOp e db itemId [] = ([], .ok db)) ∧
    (deleteOp e db itemId).1.length = 1 := by
  refine ⟨?_, ?_, ?_, ?_, by simp [modifyOp], rfl⟩
  · intro er her
    cases hv : validate_keys (item.map Prod.fst) (e.datadef.map Prod.fst) true with
    | error e' => simp_all [addOp, hv]
    | ok u => simp [addOp, hv] at her
  · intro r hr
    cases hv : validate_keys (item.map Prod.fst) (e.datadef.map Prod.fst) true with
    | error e' => simp [addOp, hv] at hr
    | ok u => simp [addOp, hv]
  · intro er her
    by_cases hi : info = []
    · simp [modifyOp, hi] at her
    · cases hv : validate_keys (info.map Prod.fst) (e.datadef.map Prod.fst) false with
      | error e' => simp_all [modifyOp, hv, hi]
      | ok u => simp [modifyOp, hv, hi] at her
  · intro db' hdb' hi
    cases hv : validate_keys (info.map Prod.fst) (e.datadef.map Prod.fst) false with
    | error e' => simp [modifyOp, hv, hi] at hdb'
    | ok u => simp [modifyOp, hv, hi]

/-- C6 (witness): the amended theorem applied concretely — a full-match
validation failure on add yields an empty trace and the error, and a
one-field modify on a one-field schema executes one statement. -/
theorem c6_validation_before_execution_witness :
    addOp ⟨[⟨"title", PyType.str, false, false⟩], "books"⟩ ⟨[], 1⟩ [] =
      ([], .error .keysNotEqual) ∧
    (modifyOp ⟨[⟨"title", PyType.str, false, false⟩], "books"⟩ ⟨[], 1⟩ 1
        [("title", Value.str "x")]).1.length = 1 :=
  ⟨(c6_validation_before_execution ⟨[⟨"title", PyType.str, false, false⟩], "books"⟩
      ⟨[], 1⟩ [] [] 1).1 .keysNotEqual rfl,
    (c6_validation_before_execution ⟨[⟨"title", PyType.str, false, false⟩], "books"⟩
      ⟨[], 1⟩ [] [("title", Value.str "x")] 1).2.2.2.1
      ⟨[], 1⟩ rfl (by simp)⟩

/-- C5: modify with an empty change map is a no-op executing no statement;
a change map containing a key outside the field map yields a validation
error with an empty statement trace (no update performed); and a non-empty
change map within the field map updates, in every row carrying the given id,
exactly the supplied fields to the supplied values, leaving that row's other
fields, its id, and all other rows unchanged, in one statement. -/
theorem c5_modify_frame (e : Engine) (db : DBState) (itemId : Int)
    (info : List (String × Value))
    (hwfE : WfEngine e) (hwfS : WfState e db)
    (hnd : (info.map Prod.fst).Nodup) :
    (modifyOp e db itemId [] = ([], .ok db)) ∧
    ((∃ k ∈ info.map Prod.fst, k ∉ e.datadef.map Prod.fst) →
      ∃ ks, modifyOp e db itemId info = ([], .error (.unexpectedKeys ks))) ∧
    ((∀ k ∈ info.map Prod.fst, k ∈ e.datadef.map Prod.fst) → info ≠ [] →
      ∃ db', (modifyOp e db itemId info).2 = .ok db' ∧
        (modifyOp e db itemId info).1.length = 1 ∧
        db'.nextId = db.nextId ∧
        db'.rows.length = db.rows.length ∧
        ∀ p ∈ db.rows.zip db'.rows,
          (p.1.id ≠ itemId → p.2 = p.1) ∧
          (p.1.id = itemId → p.2.id = p.1.id ∧
            ∀ k, colValue (e.datadef.map Prod.fst) p.2 k =
              if k ∈ info.map Prod.fst then List.lookup k info
              else colValue (e.datadef.map Prod.fst) p.1 k)) := by
  have hkeys_eq : e.datadef.map Prod.fst = e.tabledef.map RowDef.name := by
    rw [Engine.datadef, as_dict_of_nodup hwfE.1, List.map_map]
    exact List.map_congr_left fun rd _ => rfl
  refine ⟨by simp [modifyOp], ?_, ?_⟩
  · rintro ⟨k, hk, hk2⟩
    have hne : info ≠ [] := by rintro rfl; simp at hk
    have hv : validate_keys (info.map Prod.fst) (e.datadef.map Prod.fst) false =
        .error (.unexpectedKeys
          ((info.map Prod.fst).toFinset \ (e.datadef.map Prod.fst).toFinset)) :=
      (validate_keys_partial_error _ _ _).mpr ⟨rfl, k, hk, hk2⟩
    exact ⟨(info.map Prod.fst).toFinset \ (e.datadef.map Prod.fst).toFinset,
      by simp [modifyOp, hne, hv]⟩
  · intro hsub hne
    have hv : validate_keys (info.map Prod.fst) (e.datadef.map Prod.fst) false = .ok () :=
      (validate_keys_partial_ok _ _).mpr hsub
    refine ⟨⟨db.rows.map (fun r =>
        if r.id == itemId then updateRow (e.datadef.map Prod.fst) info r else r),
        db.nextId⟩, by simp [modifyOp, hne, hv], by simp [modifyOp, hne, hv], rfl,
      by simp, ?_⟩
    rw [← List.map_prod_left_eq_zip]
    intro p hp
    obtain ⟨r, hr, rfl⟩ := List.mem_map.mp hp
    constructor
    · intro hne_id
      rw [if_neg (by simpa using hne_id)]
    · intro heq
      rw [if_pos (by simpa using heq)]
      obtain ⟨hid_lt, hlen0⟩ := hwfS r hr
      have hlen : r.vals.length = (e.datadef.map Prod.fst).length := by
        rw [hkeys_eq, List.length_map]
        exact hlen0
      have hzip0 := updateRow_zip (e.datadef.map Prod.fst) info r.id r.vals hlen
      have hzip : (e.datadef.map Prod.fst).zip
          (updateRow (e.datadef.map Prod.fst) info r).vals =
          info.foldl (fun a kv => a.map (fun p => if p.1 = kv.1 then (p.1, kv.2) else p))
            ((e.datadef.map Prod.fst).zip r.vals) := hzip0.2.2
      refine ⟨rfl, ?_⟩
      intro k
      by_cases hk_id : k = "id"
      · subst hk_id
        have hid_not : "id" ∉ info.map Prod.fst := by
          intro hmem
          have hkk := hsub "id" hmem
          rw [hkeys_eq] at hkk
          obtain ⟨rd, hrd, hrdname⟩ := List.mem_map.mp hkk
          exact hwfE.2 rd hrd (by rw [hrdname]; decide)
        rw [if_neg hid_not]
        simp only [colValue, if_pos rfl]
        rfl
      · have hcol : ∀ row : Row, colValue (e.datadef.map Prod.fst) row k =
            List.lookup k ((e.datadef.map Prod.fst).zip row.vals) := by
          intro row
          rw [colValue, if_neg hk_id]
        rw [hcol, hcol, hzip, lookup_foldl_upd]
        by_cases hkmem : k ∈ info.map Prod.fst
        · rw [if_pos hkmem]
          have hk_keys : k ∈ e.datadef.map Prod.fst := hsub k hkmem
          obtain ⟨w, hw⟩ := lookup_zip_some (e.datadef.map Prod.fst) r.vals k hlen hk_keys
          rw [hw]
          simpa using foldl_upd_value_mem info k w hnd hkmem
        · rw [if_neg hkmem]
          cases hw : List.lookup k ((e.datadef.map Prod.fst).zip r.vals) with
          | none => simp
          | some w => simp [foldl_upd_value_not_mem info k w hkmem]

/-- C5 (witness): modifying the title of the stored row with id 1 in a
concrete two-field engine. -/
theorem c5_modify_frame_witness :
    ∃ db', (modifyOp
        ⟨[⟨"title", PyType.str, false, false⟩, ⟨"price", PyType.float, false, false⟩], "books"⟩
        ⟨[⟨1, [Value.str "a", Value.real 5]⟩], 2⟩ 1 [("title", Value.str "b")]).2 = .ok db' ∧
      (modifyOp
        ⟨[⟨"title", PyType.str, false, false⟩, ⟨"price", PyType.float, false, false⟩], "books"⟩
        ⟨[⟨1, [Value.str "a", Value.real 5]⟩], 2⟩ 1 [("title", Value.str "b")]).1.length = 1 ∧
      db'.nextId = (2 : Int) ∧
      db'.rows.length = 1 ∧
      ∀ p ∈ ([⟨1, [Value.str "a", Value.real 5]⟩] : List Row).zip db'.rows,
        (p.1.id ≠ 1 → p.2 = p.1) ∧
        (p.1.id = 1 → p.2.id = p.1.id ∧
          ∀ k, colValue
              ((as_dict [⟨"title", PyType.str, false, false⟩,
                ⟨"price", PyType.float, false, false⟩]).map Prod.fst) p.2 k =
            if k ∈ [("title", Value.str "b")].map Prod.fst
            then List.lookup k [("title", Value.str "b")]
            else colValue
              ((as_dict [⟨"title", PyType.str, false, false⟩,
                ⟨"price", PyType.float, false, false⟩]).map Prod.fst) p.1 k) :=
  (c5_modify_frame
    ⟨[⟨"title", PyType.str, false, false⟩, ⟨"price", PyType.float, false, false⟩], "books"⟩
    ⟨[⟨1, [Value.str "a", Value.real 5]⟩], 2⟩ 1 [("title", Value.str "b")]
    (by constructor <;> decide)
    (by
      intro r hr
      rcases List.mem_singleton.mp hr with rfl
      exact ⟨by decide, by decide⟩)
    (by decide)).2.2
    (by decide) (by simp)


/-- C1: round-trip.  For a well-formed engine and table state and a record
whose key set equals the schema's full field set, add succeeds, and a search
filtered by id equal to the returned id yields exactly one result record
whose keys are the schema's fields plus id, whose value at every field is the
added record's value, and whose id is the assigned id. -/
theorem c1_add_search_roundtrip (e : Engine) (db : DBState)
    (item : List (String × Value))
    (hwfE : WfEngine e) (hwfS : WfState e db)
    (hkeys : (item.map Prod.fst).toFinset = (e.datadef.map Prod.fst).toFinset)
    (hnd : (item.map Prod.fst).Nodup) :
    ∃ newId db' rec,
      (addOp e db item).2 = .ok (newId, db') ∧
      (searchOp e db' false [("id", Value.int newId)]).2 = .ok [rec] ∧
      rec.map Prod.fst = e.datadef.map Prod.fst ++ ["id"] ∧
      (∀ k v, (k, v) ∈ item → List.lookup k rec = some v) ∧
      List.lookup "id" rec = some (Value.int newId) := by
  have hkeys_eq : e.datadef.map Prod.fst = e.tabledef.map RowDef.name := by
    rw [Engine.datadef, as_dict_of_nodup hwfE.1, List.map_map]
    exact List.map_congr_left fun rd _ => rfl
  have hnd_keys : (e.datadef.map Prod.fst).Nodup := by
    rw [hkeys_eq]; exact hwfE.1
  have hid_not : "id" ∉ e.datadef.map Prod.fst := by
    intro hmem
    rw [hkeys_eq] at hmem
    obtain ⟨rd, hrd, hname⟩ := List.mem_map.mp hmem
    exact hwfE.2 rd hrd (by rw [hname]; decide)
  have hddwid : e.datadefWithId = e.datadef ++ [("id", PyType.int)] :=
    dictInsert_of_not_mem PyType.int hid_not
  have hddwid_fst : e.datadefWithId.map Prod.fst = e.datadef.map Prod.fst ++ ["id"] := by
    rw [hddwid, List.map_append]
    rfl
  have hv : validate_keys (item.map Prod.fst) (e.datadef.map Prod.fst) true = .ok () :=
    (validate_keys_full_ok _ _).mpr hkeys
  have hv2 : validate_keys ["id"]
      (e.datadefWithId.map Prod.fst) false = .ok () := by
    apply (validate_keys_partial_ok _ _).mpr
    intro k hk
    rw [List.mem_singleton] at hk
    subst hk
    rw [hddwid_fst]
    exact List.mem_append_right _ (List.mem_singleton.mpr rfl)
  set vals := (e.datadef.map Prod.fst).map
    (fun k => (List.lookup k item).getD Value.none) with hvals
  have hadd : (addOp e db item).2 =
      .ok (db.nextId, ⟨db.rows ++ [⟨db.nextId, vals⟩], db.nextId + 1⟩) := by
    simp [addOp, hv, hvals]
  have hpred : ∀ r : Row,
      rowMatches e.datadefWithId (e.tabledef.map RowDef.name) false
        [("id", Value.int db.nextId)] r =
        (Value.int r.id == Value.int db.nextId) := by
    intro r
    simp only [rowMatches, List.all_cons, List.all_nil, Bool.and_true, Bool.false_and,
      Bool.false_eq_true, if_false, colValue, reduceIte]
    rfl
  have hfilter : (db.rows ++ [(⟨db.nextId, vals⟩ : Row)]).filter
      (rowMatches e.datadefWithId (e.tabledef.map RowDef.name) false
        [("id", Value.int db.nextId)]) = [⟨db.nextId, vals⟩] := by
    rw [List.filter_append]
    have h1 : db.rows.filter
        (rowMatches e.datadefWithId (e.tabledef.map RowDef.name) false
          [("id", Value.int db.nextId)]) = [] := by
      rw [List.filter_eq_nil_iff]
      intro r hr
      rw [hpred r]
      simp only [Bool.not_eq_true, beq_eq_false_iff_ne, ne_eq, Value.int.injEq]
      exact Int.ne_of_lt (hwfS r hr).1
    have h2 : ([(⟨db.nextId, vals⟩ : Row)]).filter
        (rowMatches e.datadefWithId (e.tabledef.map RowDef.name) false
          [("id", Value.int db.nextId)]) = [⟨db.nextId, vals⟩] := by
      simp [List.filter_singleton, hpred]
    rw [h1, h2, List.nil_append]
  have hsearch : (searchOp e ⟨db.rows ++ [⟨db.nextId, vals⟩], db.nextId + 1⟩ false
      [("id", Value.int db.nextId)]).2 =
      .ok [renderRecord e.datadefWithId ⟨db.nextId, vals⟩] := by
    simp [searchOp, hv2, hfilter]
  have hlen_vals : vals.length = (e.datadef.map Prod.fst).length := by
    rw [hvals, List.length_map]
  have hzipsplit : renderRecord e.datadefWithId ⟨db.nextId, vals⟩ =
      (e.datadef.map Prod.fst).zip vals ++ [("id", Value.int db.nextId)] := by
    rw [renderRecord, hddwid_fst]
    rw [List.zip_append hlen_vals.symm]
    rfl
  refine ⟨db.nextId, _, renderRecord e.datadefWithId ⟨db.nextId, vals⟩, hadd, hsearch, ?_, ?_, ?_⟩
  · rw [renderRecord, hddwid_fst]
    apply List.map_fst_zip
    simp [hlen_vals]
  · intro k v hkv
    have hkmem : k ∈ e.datadef.map Prod.fst := by
      have : k ∈ (item.map Prod.fst).toFinset := by
        rw [List.mem_toFinset]
        exact List.mem_map.mpr ⟨(k, v), hkv, rfl⟩
      rw [hkeys] at this
      exact List.mem_toFinset.mp this
    rw [hzipsplit]
    apply lookup_append_left
    rw [hvals, lookup_zip_map_self _ _ hkmem,
      lookup_of_mem_of_nodup hnd hkv]
    rfl
  · rw [hzipsplit]
    rw [lookup_append_right]
    · rfl
    · rw [List.map_fst_zip _ _ (le_of_eq hlen_vals.symm)]
      exact hid_not


/-- C1 (witness): adding a concrete two-field record to an empty table and
searching it back by its id. -/
theorem c1_add_search_roundtrip_witness :
    ∃ newId db' rec,
      (addOp
        ⟨[⟨"title", PyType.str, false, false⟩, ⟨"price", PyType.float, false, false⟩], "books"⟩
        ⟨[], 1⟩ [("price", Value.real 2), ("title", Value.str "x")]).2 = .ok (newId, db') ∧
      (searchOp
        ⟨[⟨"title", PyType.str, false, false⟩, ⟨"price", PyType.float, false, false⟩], "books"⟩
        db' false [("id", Value.int newId)]).2 = .ok [rec] ∧
      rec.map Prod.fst =
        (as_dict [⟨"title", PyType.str, false, false⟩,
          ⟨"price", PyType.float, false, false⟩]).map Prod.fst ++ ["id"] ∧
      (∀ k v, (k, v) ∈ [("price", Value.real 2), ("title", Value.str "x")] →
        List.lookup k rec = some v) ∧
      List.lookup "id" rec = some (Value.int newId) :=
  c1_add_search_roundtrip
    ⟨[⟨"title", PyType.str, false, false⟩, ⟨"price", PyType.float, false, false⟩], "books"⟩
    ⟨[], 1⟩ [("price", Value.real 2), ("title", Value.str "x")]
    (by constructor <;> decide)
    (fun r hr => absurd hr (List.not_mem_nil r))
    (by decide) (by decide)

end SQLiTemplate
